import Mathlib

/- Shallow embedding of the go-metrics-datadog reporter (datadog.go).

   The reporter translates a go-metrics registry snapshot into statsd wire
   samples.  Modelling conventions:
   - Go float64 values are modelled as exact rationals (IEEE rounding is not
     modelled); Go int64 values are modelled as integers, with two's-complement
     wrapping made explicit wherever the code itself performs int64 arithmetic
     (the counter delta v - l).
   - The statsd client is modelled by the trace of calls made to it: each
     cn.Count / cn.Gauge call becomes one element of a sample list.  The
     client's per-call error return, which the Go code discards, is modelled
     by an environment function from samples to optional errors.
   - The registry is external; a flush reads its current contents, modelled as
     an association list of names and kind-tagged metric snapshots. -/

namespace Datadog

/-- Two's-complement wrapping of an integer into the signed 64-bit range: the
value an overflowing Go int64 arithmetic result takes. -/
def wrap64 (x : ℤ) : ℤ := (x + 2 ^ 63) % 2 ^ 64 - 2 ^ 63

/-- The proposition that x is representable as a Go int64. -/
def int64Range (x : ℤ) : Prop := -(2 ^ 63) ≤ x ∧ x < 2 ^ 63

instance (x : ℤ) : Decidable (int64Range x) :=
  inferInstanceAs (Decidable (-(2 ^ 63) ≤ x ∧ x < 2 ^ 63))

/-- Go conversion of a float64 to int64 (used by the time.Duration(f)
conversions in the timer branch): the fraction is discarded, truncating
toward zero. -/
def f64ToI64 (q : ℚ) : ℤ := Int.tdiv q.num (q.den : ℤ)

/-- Translation of time.Duration(n).Seconds()*1000: an integer number of
nanoseconds rendered as (fractional) milliseconds. -/
def durToMs (n : ℤ) : ℚ := (n : ℚ) / 1000000

/-- One call made to the statsd wire client: cn.Count emits a count-type
sample, cn.Gauge a gauge-type sample. -/
inductive Sample where
  | count (name : String) (value : ℤ) (tags : List String) (rate : ℚ)
  | gauge (name : String) (value : ℚ) (tags : List String) (rate : ℚ)
deriving DecidableEq

/-- Histogram snapshot as read from the go-metrics registry.  Percentiles is
modelled as a function from a requested fraction to the snapshot's value at
that fraction; ms.Percentiles(ps) returns one value per requested fraction. -/
structure HistSnap where
  count : ℤ
  max : ℤ
  min : ℤ
  mean : ℚ
  stddev : ℚ
  variance : ℚ
  pcts : ℚ → ℚ

/-- Meter snapshot as read from the go-metrics registry. -/
structure MeterSnap where
  count : ℤ
  rate1 : ℚ
  rate5 : ℚ
  rate15 : ℚ
  rateMean : ℚ

/-- Timer snapshot as read from the go-metrics registry.  Max and min are
int64 nanosecond counts; mean, stddev and percentile values are float64
nanosecond counts. -/
structure TimerSnap where
  count : ℤ
  max : ℤ
  min : ℤ
  mean : ℚ
  stddev : ℚ
  pcts : ℚ → ℚ

/-- The closed set of metric kinds the submit engine dispatches on. -/
inductive Metric where
  | counter (v : ℤ)
  | gauge (v : ℤ)
  | gaugeFloat (v : ℚ)
  | histogram (s : HistSnap)
  | meter (s : MeterSnap)
  | timer (s : TimerSnap)

/-- Whether a registry entry is a counter (the one kind whose submission
reads and writes reporter state). -/
def Metric.isCounter : Metric → Bool
  | .counter _ => true
  | _ => false

/-- Reporter state (struct Reporter).  The statsd connection is not part of
the translated state; clientProvided records whether WithClient supplied one
and registryId stands for the opaque registry handle.  ss is the counter
baseline table; a Go map read of an absent key yields the zero value, so it
is modelled as a total function defaulting to 0. -/
structure Reporter where
  addr : String
  pfx : String
  registryId : ℕ
  clientProvided : Bool
  tags : List String
  percentiles : List ℚ
  p : List String
  ss : String → ℤ

/-- Translation of strings.HasSuffix. -/
def goHasSuffix (s suf : String) : Bool := suf.data.isSuffixOf s.data

/-- The functional options accepted by New (type configFn); one constructor
per exported With* option. -/
inductive ConfigOpt where
  | address (v : String)
  | nsPfx (v : String)
  | registry (v : ℕ)
  | percentiles (v : List ℚ)
  | client

/-- Application of a single configuration option to the reporter, translated
from the closure each With* constructor returns.  WithPrefix appends a "."
unless v already ends in one. -/
def applyOpt (r : Reporter) : ConfigOpt → Reporter
  | .address v => { r with addr := v }
  | .nsPfx v => { r with pfx := if goHasSuffix v "." then v else v ++ "." }
  | .registry v => { r with registryId := v }
  | .percentiles v => { r with percentiles := v }
  | .client => { r with clientProvided := true }

/-- Two-digit zero-padded decimal rendering of a value below 100. -/
def pad2 (n : ℕ) : String := if n < 10 then "0" ++ toString n else toString n

/-- Translation of fmt.Sprintf("%.2f", q): round to the nearest hundredth and
render with exactly two digits after the decimal point.  Decimal ties cannot
occur at a binary float64, so the half-up tie rule here is unobservable on
values the Go code can hold. -/
def fmt2f (q : ℚ) : String :=
  let c : ℤ := ⌊q * 100 + 1 / 2⌋
  if c < 0 then
    "-" ++ toString ((-c).toNat / 100) ++ "." ++ pad2 ((-c).toNat % 100)
  else
    toString (c.toNat / 100) ++ "." ++ pad2 (c.toNat % 100)

/-- Percentile label derived from a fraction: fmt.Sprintf(".pct-%.2f", p*100.0). -/
def pctLabel (p : ℚ) : String := ".pct-" ++ fmt2f (p * 100)

/-- The reporter New starts from before options are applied: default address,
default percentiles, empty baseline table. -/
def defaultReporter : Reporter where
  addr := "127.0.0.1:8125"
  pfx := ""
  registryId := 0
  clientProvided := false
  tags := []
  percentiles := [1 / 2, 3 / 4, 19 / 20, 99 / 100, 999 / 1000]
  p := []
  ss := fun _ => 0

/-- Translation of New: fold the options over the defaults, then precompute
the percentile label cache when the percentile list is non-empty.  The statsd
client construction (and its possible connection error) is outside the
translated state. -/
def New (opts : List ConfigOpt) : Reporter :=
  let r := opts.foldl applyOpt defaultReporter
  if r.percentiles.length > 0 then { r with p := r.percentiles.map pctLabel } else r

/-- The wire-client calls the submit engine makes for a single registry entry,
translated case by case from the type switch in submit.  ss is the current
counter baseline table. -/
def metricSamples (tags : List String) (pcts : List ℚ) (labels : List String)
    (ss : String → ℤ) (name : String) : Metric → List Sample
  | .counter v => [Sample.count name (wrap64 (v - ss name)) tags 1]
  | .gauge v => [Sample.gauge name (v : ℚ) tags 1]
  | .gaugeFloat v => [Sample.gauge name v tags 1]
  | .histogram s =>
      [Sample.gauge (name ++ ".count") (s.count : ℚ) tags 1,
       Sample.gauge (name ++ ".max") (s.max : ℚ) tags 1,
       Sample.gauge (name ++ ".min") (s.min : ℚ) tags 1,
       Sample.gauge (name ++ ".mean") s.mean tags 1,
       Sample.gauge (name ++ ".stddev") s.stddev tags 1,
       Sample.gauge (name ++ ".var") s.variance tags 1] ++
      (if pcts.length > 0 then
        (labels.zip (pcts.map s.pcts)).map fun lv => Sample.gauge (name ++ lv.1) lv.2 tags 1
      else [])
  | .meter s =>
      [Sample.gauge (name ++ ".count") (s.count : ℚ) tags 1,
       Sample.gauge (name ++ ".rate1") s.rate1 tags 1,
       Sample.gauge (name ++ ".rate5") s.rate5 tags 1,
       Sample.gauge (name ++ ".rate15") s.rate15 tags 1,
       Sample.gauge (name ++ ".mean") s.rateMean tags 1]
  | .timer s =>
      [Sample.gauge (name ++ ".count") (s.count : ℚ) tags 1,
       Sample.gauge (name ++ ".max") (durToMs s.max) tags 1,
       Sample.gauge (name ++ ".min") (durToMs s.min) tags 1,
       Sample.gauge (name ++ ".mean") (durToMs (f64ToI64 s.mean)) tags 1,
       Sample.gauge (name ++ ".stddev") (durToMs (f64ToI64 s.stddev)) tags 1] ++
      (if pcts.length > 0 then
        (labels.zip (pcts.map s.pcts)).map fun lv =>
          Sample.gauge (name ++ lv.1) (durToMs (f64ToI64 lv.2)) tags 1
      else [])

/-- The counter baseline table after one registry entry is submitted: only the
counter branch writes r.ss[name] = v. -/
def ssAfter (ss : String → ℤ) (name : String) : Metric → String → ℤ
  | .counter v => fun n => if n = name then v else ss n
  | _ => ss

/-- The registry iteration inside submit: concatenate each entry's wire calls
in registry order while threading the baseline table. -/
def submitList (tags : List String) (pcts : List ℚ) (labels : List String)
    (ss : String → ℤ) : List (String × Metric) → List Sample × (String → ℤ)
  | [] => ([], ss)
  | e :: rest =>
      let here := metricSamples tags pcts labels ss e.1 e.2
      let out := submitList tags pcts labels (ssAfter ss e.1 e.2) rest
      (here ++ out.1, out.2)

/-- Translation of submit's effect on reporter state and the wire: the sample
trace and the updated reporter. -/
def submit (r : Reporter) (reg : List (String × Metric)) : List Sample × Reporter :=
  let out := submitList r.tags r.percentiles r.p r.ss reg
  (out.1, { r with ss := out.2 })

/-- Everything observable about one Flush call: the samples handed to the wire
client, the client's per-call results (which the engine discards), the new
reporter state and the error Flush returns. -/
structure FlushOut where
  samples : List Sample
  sendErrs : List (Option String)
  rep : Reporter
  err : Option String

/-- Translation of Flush / submit as a whole: sendFail is the environment's
choice of per-call wire-client outcome; the Go code never inspects those
returns and submit ends with return nil. -/
def Flush (r : Reporter) (reg : List (String × Metric))
    (sendFail : Sample → Option String) : FlushOut :=
  let out := submit r reg
  { samples := out.1, sendErrs := out.1.map sendFail, rep := out.2, err := none }

/-- Names of the registry entries that are counters, the only entries whose
submission writes the baseline table. -/
def counterNames : List (String × Metric) → List String
  | [] => []
  | (nm, Metric.counter _) :: rest => nm :: counterNames rest
  | _ :: rest => counterNames rest

/-- Wrapping is the identity on values already in the int64 range. -/
theorem wrap64_of_int64Range (x : ℤ) (h : int64Range x) : wrap64 x = x := by
  obtain ⟨h1, h2⟩ := h
  have hb : (2 : ℤ) ^ 64 = 2 ^ 63 + 2 ^ 63 := by norm_num
  unfold wrap64
  rw [Int.emod_eq_of_lt (by linarith) (by rw [hb]; linarith)]
  ring

/-- No configuration option writes the percentile label cache. -/
theorem foldl_applyOpt_p (opts : List ConfigOpt) (r : Reporter) :
    (opts.foldl applyOpt r).p = r.p := by
  induction opts generalizing r with
  | nil => rfl
  | cons o rest ih => cases o <;> simp [List.foldl_cons, ih, applyOpt]

/-- Lists produced entrywise by equal functions flatten to equal lists. -/
theorem flatMapCongr {α β : Type} (l : List α) (f g : α → List β)
    (h : ∀ a ∈ l, f a = g a) : l.flatMap f = l.flatMap g := by
  induction l with
  | nil => rfl
  | cons a rest ih =>
      simp only [List.flatMap_cons, h a (List.mem_cons_self a rest)]
      rw [ih fun b hb => h b (List.mem_cons_of_mem a hb)]


/-- Submitting a registry leaves every baseline untouched except those of the
counter entries it contains. -/
theorem submitList_ss_not_counter (tags : List String) (pcts : List ℚ)
    (labels : List String) (ss : String → ℤ) (reg : List (String × Metric))
    (n : String) (h : n ∉ counterNames reg) :
    (submitList tags pcts labels ss reg).2 n = ss n := by
  induction reg generalizing ss with
  | nil => rfl
  | cons e rest ih =>
      obtain ⟨nm, m⟩ := e
      cases m
      case counter v =>
        have h' : n ∉ nm :: counterNames rest := h
        have h1 : n ≠ nm := fun hq => h' (hq ▸ List.mem_cons_self nm (counterNames rest))
        have h2 : n ∉ counterNames rest := fun hq => h' (List.mem_cons_of_mem nm hq)
        show (submitList tags pcts labels (ssAfter ss nm (Metric.counter v)) rest).2 n = ss n
        rw [ih _ h2]
        show (if n = nm then v else ss n) = ss n
        simp [h1]
      all_goals exact ih _ h

/-- The sample trace only reads the baseline table at counter names, so two
baseline tables agreeing there produce identical traces. -/
theorem submitList_samples_congr (tags : List String) (pcts : List ℚ)
    (labels : List String) (reg : List (String × Metric)) (ss₁ ss₂ : String → ℤ)
    (h : ∀ n ∈ counterNames reg, ss₁ n = ss₂ n) :
    (submitList tags pcts labels ss₁ reg).1 = (submitList tags pcts labels ss₂ reg).1 := by
  induction reg generalizing ss₁ ss₂ with
  | nil => rfl
  | cons e rest ih =>
      obtain ⟨nm, m⟩ := e
      cases m
      case counter v =>
        have hnm : ss₁ nm = ss₂ nm := h nm (List.mem_cons_self nm (counterNames rest))
        have hrest : ∀ n ∈ counterNames rest,
            (fun x => if x = nm then v else ss₁ x) n = (fun x => if x = nm then v else ss₂ x) n := by
          intro n hn
          by_cases hq : n = nm
          · simp [hq]
          · simpa [hq] using h n (List.mem_cons_of_mem nm hn)
        show [Sample.count nm (wrap64 (v - ss₁ nm)) tags 1] ++
              (submitList tags pcts labels (fun x => if x = nm then v else ss₁ x) rest).1 =
            [Sample.count nm (wrap64 (v - ss₂ nm)) tags 1] ++
              (submitList tags pcts labels (fun x => if x = nm then v else ss₂ x) rest).1
        rw [hnm, ih _ _ hrest]
      all_goals exact congrArg₂ (· ++ ·) rfl (ih _ _ h)

/-- Counter names are registry names. -/
theorem counterNames_subset (reg : List (String × Metric)) :
    counterNames reg ⊆ reg.map Prod.fst := by
  induction reg with
  | nil => exact fun n hn => absurd hn (List.not_mem_nil n)
  | cons e rest ih =>
      obtain ⟨nm, m⟩ := e
      cases m
      case counter v =>
        intro n hn
        rcases List.mem_cons.mp hn with h1 | h2
        · exact List.mem_cons.mpr (Or.inl h1)
        · exact List.mem_cons.mpr (Or.inr (ih h2))
      all_goals exact fun n hn => List.mem_cons_of_mem _ (ih hn)

/-- After submitting a registry with distinct names, the baseline of each
counter entry equals that entry's observed cumulative value. -/
theorem submitList_ss_counterValue (tags : List String) (pcts : List ℚ)
    (labels : List String) (ss : String → ℤ) (reg : List (String × Metric))
    (nm : String) (v : ℤ) (hnd : (reg.map Prod.fst).Nodup)
    (hm : (nm, Metric.counter v) ∈ reg) :
    (submitList tags pcts labels ss reg).2 nm = v := by
  induction reg generalizing ss with
  | nil => simp at hm
  | cons e rest ih =>
      have hnd' : (rest.map Prod.fst).Nodup := (List.nodup_cons.mp (by simpa using hnd)).2
      rcases List.mem_cons.mp hm with he | hrest
      · have hnotin : e.1 ∉ rest.map Prod.fst := (List.nodup_cons.mp (by simpa using hnd)).1
        subst he
        have hnc : nm ∉ counterNames rest :=
          fun hc => hnotin (counterNames_subset rest hc)
        show (submitList tags pcts labels (ssAfter ss nm (Metric.counter v)) rest).2 nm = v
        rw [submitList_ss_not_counter _ _ _ _ _ _ hnc]
        show (if nm = nm then v else ss nm) = v
        simp
      · show (submitList tags pcts labels (ssAfter ss e.1 e.2) rest).2 nm = v
        exact ih _ hnd' hrest

/-- With distinct registry names, the evolving baseline table never affects a
later entry, so the trace is the pointwise trace over the starting table. -/
theorem submitList_samples_flatMap (tags : List String) (pcts : List ℚ)
    (labels : List String) (ss : String → ℤ) (reg : List (String × Metric))
    (hnd : (reg.map Prod.fst).Nodup) :
    (submitList tags pcts labels ss reg).1 =
      reg.flatMap fun e => metricSamples tags pcts labels ss e.1 e.2 := by
  induction reg generalizing ss with
  | nil => rfl
  | cons e rest ih =>
      have hnd' : (rest.map Prod.fst).Nodup := (List.nodup_cons.mp (by simpa using hnd)).2
      have hnotin : e.1 ∉ rest.map Prod.fst := (List.nodup_cons.mp (by simpa using hnd)).1
      have hagree : ∀ n ∈ counterNames rest, ssAfter ss e.1 e.2 n = ss n := by
        intro n hn
        have hne : n ≠ e.1 := by
          intro hq
          exact hnotin (hq ▸ counterNames_subset rest hn)
        cases e2 : e.2 <;> simp [ssAfter, hne]
      have step1 : (submitList tags pcts labels (ssAfter ss e.1 e.2) rest).1 =
          (submitList tags pcts labels ss rest).1 :=
        submitList_samples_congr tags pcts labels rest _ ss hagree
      rw [List.flatMap_cons, ← ih _ hnd', ← step1]
      exact congrArg₂ (· ++ ·) rfl rfl

/-- C5: for every meter, a flush emits gauge-type samples in exactly the order
.count, .rate1, .rate5, .rate15, .mean (the overall mean rate), and never
emits percentile samples for a meter, whatever the percentile configuration. -/
theorem claim5MeterOrder (tags : List String) (pcts : List ℚ) (labels : List String)
    (ss : String → ℤ) (name : String) (s : MeterSnap) :
    metricSamples tags pcts labels ss name (Metric.meter s) =
      [Sample.gauge (name ++ ".count") (s.count : ℚ) tags 1,
       Sample.gauge (name ++ ".rate1") s.rate1 tags 1,
       Sample.gauge (name ++ ".rate5") s.rate5 tags 1,
       Sample.gauge (name ++ ".rate15") s.rate15 tags 1,
       Sample.gauge (name ++ ".mean") s.rateMean tags 1] ∧
    (metricSamples tags pcts labels ss name (Metric.meter s)).length = 5 :=
  ⟨rfl, rfl⟩

/-- C8: Flush returns success unconditionally, for every reporter state,
registry contents and wire-client failure behaviour; the per-sample send
results are produced (one per sample) but never surfaced, and the emitted
trace does not depend on them. -/
theorem claim8FlushAlwaysSucceeds (r : Reporter) (reg : List (String × Metric))
    (sendFail : Sample → Option String) :
    (Flush r reg sendFail).err = none ∧
    (Flush r reg sendFail).samples = (Flush r reg fun _ => none).samples ∧
    (Flush r reg sendFail).sendErrs = (Flush r reg sendFail).samples.map sendFail :=
  ⟨rfl, rfl, rfl⟩

/-- C2: for every histogram, a flush emits gauge samples in exactly the order
.count, .max, .min, .mean, .stddev, .var, then one gauge per configured
percentile in list order with the snapshot's percentile values, giving
6 + n samples for n percentiles; an empty percentile list emits exactly the
first six samples. -/
theorem claim2HistogramOrder (tags : List String) (pcts : List ℚ) (labels : List String)
    (ss : String → ℤ) (name : String) (s : HistSnap)
    (h : labels.length = pcts.length) :
    metricSamples tags pcts labels ss name (Metric.histogram s) =
      [Sample.gauge (name ++ ".count") (s.count : ℚ) tags 1,
       Sample.gauge (name ++ ".max") (s.max : ℚ) tags 1,
       Sample.gauge (name ++ ".min") (s.min : ℚ) tags 1,
       Sample.gauge (name ++ ".mean") s.mean tags 1,
       Sample.gauge (name ++ ".stddev") s.stddev tags 1,
       Sample.gauge (name ++ ".var") s.variance tags 1] ++
      (labels.zip (pcts.map s.pcts)).map (fun lv => Sample.gauge (name ++ lv.1) lv.2 tags 1) ∧
    (metricSamples tags pcts labels ss name (Metric.histogram s)).length = 6 + pcts.length ∧
    (pcts = [] → metricSamples tags pcts labels ss name (Metric.histogram s) =
      [Sample.gauge (name ++ ".count") (s.count : ℚ) tags 1,
       Sample.gauge (name ++ ".max") (s.max : ℚ) tags 1,
       Sample.gauge (name ++ ".min") (s.min : ℚ) tags 1,
       Sample.gauge (name ++ ".mean") s.mean tags 1,
       Sample.gauge (name ++ ".stddev") s.stddev tags 1,
       Sample.gauge (name ++ ".var") s.variance tags 1]) := by
  have heq : metricSamples tags pcts labels ss name (Metric.histogram s) =
      [Sample.gauge (name ++ ".count") (s.count : ℚ) tags 1,
       Sample.gauge (name ++ ".max") (s.max : ℚ) tags 1,
       Sample.gauge (name ++ ".min") (s.min : ℚ) tags 1,
       Sample.gauge (name ++ ".mean") s.mean tags 1,
       Sample.gauge (name ++ ".stddev") s.stddev tags 1,
       Sample.gauge (name ++ ".var") s.variance tags 1] ++
      (labels.zip (pcts.map s.pcts)).map (fun lv => Sample.gauge (name ++ lv.1) lv.2 tags 1) := by
    by_cases hp : pcts.length > 0
    · simp [metricSamples, hp]
    · have hnil : pcts = [] := List.length_eq_zero.mp (by omega)
      subst hnil
      simp [metricSamples]
  refine ⟨heq, ?_, ?_⟩
  · rw [heq]
    simp [List.length_zip, h]
    omega
  · intro hnil
    subst hnil
    rw [heq]
    simp

/-- C6 counterexample: applying the prefix option to the empty string stores
".", so the claim that an empty v leaves the prefix empty is false on the
code. -/
theorem claim6Cex :
    (applyOpt defaultReporter (ConfigOpt.nsPfx "")).pfx = "." ∧ ("." : String) ≠ "" := by
  constructor
  · decide
  · decide

/-- C6 (amended): applying the prefix option stores v unchanged when v already
ends in the separator (never doubling it) and stores v ++ "." otherwise; every
stored prefix ends in a separator, and in particular the empty v is stored as
".", not left empty. -/
theorem claim6PrefixNormalization (v : String) (r : Reporter) :
    (applyOpt r (ConfigOpt.nsPfx v)).pfx = (if goHasSuffix v "." then v else v ++ ".") ∧
    goHasSuffix (applyOpt r (ConfigOpt.nsPfx v)).pfx "." = true := by
  refine ⟨rfl, ?_⟩
  show goHasSuffix (if goHasSuffix v "." then v else v ++ ".") "." = true
  by_cases hv : goHasSuffix v "." = true
  · simp [hv]
  · simp only [Bool.not_eq_true] at hv
    simp only [hv, if_false]
    simp [goHasSuffix, String.data_append, List.isSuffixOf, List.isPrefixOf]

/-- C2 witness: a histogram flushed with the five default percentiles and a
matching label cache emits 11 samples. -/
theorem claim2Witness :
    (["a", "b", "c", "d", "e"] : List String).length =
      ([1 / 2, 3 / 4, 19 / 20, 99 / 100, 999 / 1000] : List ℚ).length ∧
    (metricSamples [] [1 / 2, 3 / 4, 19 / 20, 99 / 100, 999 / 1000]
        ["a", "b", "c", "d", "e"] (fun _ => 0) "h"
        (Metric.histogram ⟨2, 11, 1, 6, 5, 25, fun _ => 6⟩)).length =
      6 + ([1 / 2, 3 / 4, 19 / 20, 99 / 100, 999 / 1000] : List ℚ).length :=
  ⟨rfl, (claim2HistogramOrder [] [1 / 2, 3 / 4, 19 / 20, 99 / 100, 999 / 1000]
    ["a", "b", "c", "d", "e"] (fun _ => 0) "h"
    ⟨2, 11, 1, 6, 5, 25, fun _ => 6⟩ rfl).2.1⟩

/-- C1 counterexample: for cumulative values c1 = -1 (a decremented counter)
then c2 = 2^63 - 1, the first flush emits c1 but the second emits the int64
wrap of c2 - c1, namely -(2^63), not c2 - c1 = 2^63; the claim's unqualified
delta equation fails on the code. -/
theorem claim1Cex :
    (submit defaultReporter [("n", Metric.counter (-1))]).1 =
      [Sample.count "n" (-1) [] 1] ∧
    (submit (submit defaultReporter [("n", Metric.counter (-1))]).2
        [("n", Metric.counter (2 ^ 63 - 1))]).1 =
      [Sample.count "n" (-(2 ^ 63)) [] 1] ∧
    (-(2 ^ 63) : ℤ) ≠ (2 ^ 63 - 1) - (-1) := by
  refine ⟨by decide, by decide, by decide⟩

/-- C1 (amended): each flush emits exactly one count-type sample per counter
whose value is the current cumulative count minus the stored baseline wrapped
to int64 — equal to the exact difference whenever that difference fits in
int64 — and then stores the current count as the new baseline; an unseen name
has baseline 0, so the first flush emits the full cumulative count; for
values c1 then c2 across two flushes the deltas are c1 and the int64 wrap of
c2 - c1, which equals c2 - c1 whenever it fits in int64. -/
theorem claim1CounterDelta (tags : List String) (pcts : List ℚ)
    (labels : List String) (ss : String → ℤ) (name : String) (v : ℤ) :
    metricSamples tags pcts labels ss name (Metric.counter v) =
      [Sample.count name (wrap64 (v - ss name)) tags 1] ∧
    ssAfter ss name (Metric.counter v) name = v ∧
    (int64Range (v - ss name) → wrap64 (v - ss name) = v - ss name) ∧
    (∀ (r : Reporter) (c1 c2 : ℤ), r.ss name = 0 → int64Range c1 →
      (submit r [(name, Metric.counter c1)]).1 = [Sample.count name c1 r.tags 1] ∧
      (submit r [(name, Metric.counter c1)]).2.ss name = c1 ∧
      (submit (submit r [(name, Metric.counter c1)]).2 [(name, Metric.counter c2)]).1 =
        [Sample.count name (wrap64 (c2 - c1)) r.tags 1] ∧
      (int64Range (c2 - c1) → wrap64 (c2 - c1) = c2 - c1)) := by
  refine ⟨rfl, by simp [ssAfter], fun h => wrap64_of_int64Range _ h, ?_⟩
  intro r c1 c2 h0 h1
  have hss : (submit r [(name, Metric.counter c1)]).2.ss name = c1 := by
    show ssAfter r.ss name (Metric.counter c1) name = c1
    simp [ssAfter]
  refine ⟨?_, hss, ?_, fun h => wrap64_of_int64Range _ h⟩
  · show metricSamples r.tags r.percentiles r.p r.ss name (Metric.counter c1) ++ [] =
      [Sample.count name c1 r.tags 1]
    simp [metricSamples, h0, wrap64_of_int64Range c1 h1]
  · show metricSamples r.tags r.percentiles r.p
        (submit r [(name, Metric.counter c1)]).2.ss name (Metric.counter c2) ++ [] =
      [Sample.count name (wrap64 (c2 - c1)) r.tags 1]
    simp [metricSamples, hss]

/-- C1 witness: with cumulative counts 2 then 5 the two flushes emit count
deltas 2 and 3. -/
theorem claim1Witness :
    (defaultReporter.ss "n" = 0 ∧ int64Range (2 : ℤ)) ∧
    (submit defaultReporter [("n", Metric.counter 2)]).1 =
      [Sample.count "n" 2 [] 1] ∧
    (submit (submit defaultReporter [("n", Metric.counter 2)]).2
        [("n", Metric.counter 5)]).1 =
      [Sample.count "n" (wrap64 (5 - 2)) [] 1] :=
  ⟨⟨rfl, by decide⟩,
    ((claim1CounterDelta [] [] [] (fun _ => 0) "n" 7).2.2.2
      defaultReporter 2 5 rfl (by decide)).1,
    ((claim1CounterDelta [] [] [] (fun _ => 0) "n" 7).2.2.2
      defaultReporter 2 5 rfl (by decide)).2.2.1⟩

/-- C3 counterexample: a timer snapshot whose mean is 3/2 nanoseconds emits a
.mean gauge of 1e-6 milliseconds (the float64 value is first truncated to a
whole number of nanoseconds by the Duration conversion), not the claim's
(3/2)/1e6. -/
theorem claim3Cex :
    (metricSamples [] [] [] (fun _ => 0) "t"
        (Metric.timer ⟨2, 2, 1, mkRat 3 2, mkRat 1 2, fun _ => 0⟩)) =
      [Sample.gauge "t.count" 2 [] 1,
       Sample.gauge "t.max" (durToMs 2) [] 1,
       Sample.gauge "t.min" (durToMs 1) [] 1,
       Sample.gauge "t.mean" (durToMs 1) [] 1,
       Sample.gauge "t.stddev" (durToMs 0) [] 1] ∧
    durToMs 1 ≠ mkRat 3 2 / 1000000 := by
  constructor
  · have h1 : f64ToI64 (mkRat 3 2) = 1 := by decide
    have h2 : f64ToI64 (mkRat 1 2) = 0 := by decide
    simp [metricSamples, h1, h2]
  · rw [Rat.mkRat_eq_div, durToMs]
    norm_num

/-- C3 (amended): for every timer a flush emits .count as the raw sample
count, then .max, .min, .mean, .stddev and each configured percentile as
gauge samples; .max and .min are the integer nanosecond values divided by
1e6, while .mean, .stddev and the percentile values are first truncated
toward zero to whole nanoseconds (Go's float64-to-Duration conversion) and
then divided by 1e6; no .var sample is emitted. -/
theorem claim3TimerConversion (tags : List String) (pcts : List ℚ)
    (labels : List String) (ss : String → ℤ) (name : String) (s : TimerSnap)
    (h : labels.length = pcts.length) :
    metricSamples tags pcts labels ss name (Metric.timer s) =
      [Sample.gauge (name ++ ".count") (s.count : ℚ) tags 1,
       Sample.gauge (name ++ ".max") (durToMs s.max) tags 1,
       Sample.gauge (name ++ ".min") (durToMs s.min) tags 1,
       Sample.gauge (name ++ ".mean") (durToMs (f64ToI64 s.mean)) tags 1,
       Sample.gauge (name ++ ".stddev") (durToMs (f64ToI64 s.stddev)) tags 1] ++
      (labels.zip (pcts.map s.pcts)).map
        (fun lv => Sample.gauge (name ++ lv.1) (durToMs (f64ToI64 lv.2)) tags 1) ∧
    (metricSamples tags pcts labels ss name (Metric.timer s)).length = 5 + pcts.length ∧
    (∀ n : ℤ, durToMs n = (n : ℚ) / 1000000) := by
  have heq : metricSamples tags pcts labels ss name (Metric.timer s) =
      [Sample.gauge (name ++ ".count") (s.count : ℚ) tags 1,
       Sample.gauge (name ++ ".max") (durToMs s.max) tags 1,
       Sample.gauge (name ++ ".min") (durToMs s.min) tags 1,
       Sample.gauge (name ++ ".mean") (durToMs (f64ToI64 s.mean)) tags 1,
       Sample.gauge (name ++ ".stddev") (durToMs (f64ToI64 s.stddev)) tags 1] ++
      (labels.zip (pcts.map s.pcts)).map
        (fun lv => Sample.gauge (name ++ lv.1) (durToMs (f64ToI64 lv.2)) tags 1) := by
    by_cases hp : pcts.length > 0
    · simp [metricSamples, hp]
    · have hnil : pcts = [] := List.length_eq_zero.mp (by omega)
      subst hnil
      simp [metricSamples]
  refine ⟨heq, ?_, fun _ => rfl⟩
  rw [heq]
  simp [List.length_zip, h]
  omega

/-- C3 witness: a timer flushed with the five default percentiles and a
matching label cache emits 10 samples. -/
theorem claim3Witness :
    (["a", "b", "c", "d", "e"] : List String).length =
      ([1 / 2, 3 / 4, 19 / 20, 99 / 100, 999 / 1000] : List ℚ).length ∧
    (metricSamples [] [1 / 2, 3 / 4, 19 / 20, 99 / 100, 999 / 1000]
        ["a", "b", "c", "d", "e"] (fun _ => 0) "t"
        (Metric.timer ⟨10, 10000000, 1000000, 1900000, 2700000, fun _ => 1000000⟩)).length =
      5 + ([1 / 2, 3 / 4, 19 / 20, 99 / 100, 999 / 1000] : List ℚ).length :=
  ⟨rfl, (claim3TimerConversion [] [1 / 2, 3 / 4, 19 / 20, 99 / 100, 999 / 1000]
    ["a", "b", "c", "d", "e"] (fun _ => 0) "t"
    ⟨10, 10000000, 1000000, 1900000, 2700000, fun _ => 1000000⟩ rfl).2.1⟩

/-- C4: flushing twice with the registry unchanged emits a counter delta of 0
for every counter on the second flush, while gauge, histogram, meter and
timer entries emit exactly the same samples as the first flush (their
emission does not read the baseline table). -/
theorem claim4FlushTwice (r : Reporter) (reg : List (String × Metric))
    (hnd : (reg.map Prod.fst).Nodup) :
    (submit (submit r reg).2 reg).1 =
      (reg.flatMap fun e =>
        match e.2 with
        | Metric.counter _ => [Sample.count e.1 0 r.tags 1]
        | _ => metricSamples r.tags r.percentiles r.p r.ss e.1 e.2) ∧
    (submit r reg).1 =
      (reg.flatMap fun e => metricSamples r.tags r.percentiles r.p r.ss e.1 e.2) := by
  constructor
  · have hflat : (submit (submit r reg).2 reg).1 =
        reg.flatMap fun e =>
          metricSamples r.tags r.percentiles r.p (submit r reg).2.ss e.1 e.2 :=
      submitList_samples_flatMap _ _ _ _ _ hnd
    rw [hflat]
    refine flatMapCongr _ _ _ ?_
    intro e he
    match e, he with
    | (nm, Metric.counter v), he =>
        have hv : (submit r reg).2.ss nm = v :=
          submitList_ss_counterValue _ _ _ _ _ _ _ hnd he
        show [Sample.count nm (wrap64 (v - (submit r reg).2.ss nm)) r.tags 1] =
          [Sample.count nm 0 r.tags 1]
        rw [hv]
        norm_num [wrap64]
    | (nm, Metric.gauge v), he => rfl
    | (nm, Metric.gaugeFloat v), he => rfl
    | (nm, Metric.histogram s), he => rfl
    | (nm, Metric.meter s), he => rfl
    | (nm, Metric.timer s), he => rfl
  · exact submitList_samples_flatMap _ _ _ _ _ hnd

/-- C4 witness: flushing a one-counter, one-gauge registry twice emits delta 3
then delta 0 while the gauge sample repeats. -/
theorem claim4Witness :
    ((([("c", Metric.counter 3), ("g", Metric.gauge 7)] :
        List (String × Metric)).map Prod.fst).Nodup) ∧
    (submit (submit defaultReporter
        [("c", Metric.counter 3), ("g", Metric.gauge 7)]).2
        [("c", Metric.counter 3), ("g", Metric.gauge 7)]).1 =
      [Sample.count "c" 0 [] 1, Sample.gauge "g" 7 [] 1] :=
  ⟨by decide,
    by
      rw [(claim4FlushTwice defaultReporter
        [("c", Metric.counter 3), ("g", Metric.gauge 7)] (by decide)).1]
      rfl⟩

/-- C7: after construction the percentile label cache is exactly the
percentile list mapped through the fixed-format label function, so both lists
have equal length (the invariant that keeps the percentile emission loop's
indexing in bounds), the cache is empty when the percentile list is empty,
and fraction 19/20 yields the label ".pct-95.00". -/
theorem claim7LabelCache (opts : List ConfigOpt) :
    (New opts).p = (New opts).percentiles.map pctLabel ∧
    (New opts).p.length = (New opts).percentiles.length ∧
    ((New opts).percentiles = [] → (New opts).p = []) ∧
    pctLabel (19 / 20) = ".pct-95.00" := by
  have hmap : (New opts).p = (New opts).percentiles.map pctLabel := by
    unfold New
    by_cases hp : (opts.foldl applyOpt defaultReporter).percentiles.length > 0
    · simp [hp]
    · have hnil : (opts.foldl applyOpt defaultReporter).percentiles = [] :=
        List.length_eq_zero.mp (by omega)
      simp only [if_neg hp]
      rw [foldl_applyOpt_p, hnil]
      rfl
  have hlabel : pctLabel (19 / 20) = ".pct-95.00" := by
    have hfloor : (⌊(19 : ℚ) / 20 * 100 * 100 + 1 / 2⌋ : ℤ) = 9500 := by
      norm_num [Int.floor_eq_iff]
    simp only [pctLabel, fmt2f, hfloor]
    decide
  exact ⟨hmap, by rw [hmap]; simp, fun hnil => by rw [hmap, hnil]; rfl, hlabel⟩

/-- C7 witness: constructing with an empty percentile list yields an empty
label cache. -/
theorem claim7Witness :
    (New [ConfigOpt.percentiles []]).percentiles = [] ∧
    (New [ConfigOpt.percentiles []]).p = [] :=
  ⟨rfl, (claim7LabelCache [ConfigOpt.percentiles []]).2.2.1 rfl⟩

/-- C9: a flush keeps the address, prefix, tag list, percentile list and
percentile label cache unchanged, and changes no baseline entry other than
those of the counter names observed in the flushed registry. -/
theorem claim9FlushFrame (r : Reporter) (reg : List (String × Metric))
    (sendFail : Sample → Option String) :
    (Flush r reg sendFail).rep.addr = r.addr ∧
    (Flush r reg sendFail).rep.pfx = r.pfx ∧
    (Flush r reg sendFail).rep.tags = r.tags ∧
    (Flush r reg sendFail).rep.percentiles = r.percentiles ∧
    (Flush r reg sendFail).rep.p = r.p ∧
    ∀ n, n ∉ counterNames reg → (Flush r reg sendFail).rep.ss n = r.ss n :=
  ⟨rfl, rfl, rfl, rfl, rfl,
    fun _ hn => submitList_ss_not_counter _ _ _ _ _ _ hn⟩

/-- C9 witness: flushing a one-counter registry leaves the baseline of an
unrelated name unchanged. -/
theorem claim9Witness :
    ("b" ∉ counterNames [("a", Metric.counter 3)]) ∧
    (Flush defaultReporter [("a", Metric.counter 3)] (fun _ => none)).rep.ss "b" =
      defaultReporter.ss "b" :=
  ⟨by decide,
    (claim9FlushFrame defaultReporter [("a", Metric.counter 3)]
      (fun _ => none)).2.2.2.2.2 "b" (by decide)⟩

/-- C10 counterexample: with stored baseline 2^63 - 1 and current count
-(2^63) — the counter was decremented — the emitted delta wraps to +1, a
positive value, so the claim's unqualified negative-delta statement fails on
the code. -/
theorem claim10Cex :
    (submit defaultReporter [("n", Metric.counter (2 ^ 63 - 1))]).2.ss "n" =
      2 ^ 63 - 1 ∧
    (-(2 ^ 63) : ℤ) < 2 ^ 63 - 1 ∧
    (submit (submit defaultReporter [("n", Metric.counter (2 ^ 63 - 1))]).2
        [("n", Metric.counter (-(2 ^ 63)))]).1 =
      [Sample.count "n" 1 [] 1] ∧
    ¬ ((1 : ℤ) < 0) := by
  refine ⟨by decide, by decide, by decide, by decide⟩

/-- C10 (amended): when the current count is below the stored baseline and
the drop does not exceed 2^63, the flush emits the exact negative delta
without clamping, stores the lower current value as the new baseline, and the
next flush computes its (wrapped) delta against that lower value. -/
theorem claim10NegativeDelta (tags : List String) (pcts : List ℚ)
    (labels : List String) (ss : String → ℤ) (name : String) (v : ℤ)
    (hlt : v < ss name) (hgap : ss name - v ≤ 2 ^ 63) :
    metricSamples tags pcts labels ss name (Metric.counter v) =
      [Sample.count name (v - ss name) tags 1] ∧
    v - ss name < 0 ∧
    ssAfter ss name (Metric.counter v) name = v ∧
    (∀ v2 : ℤ, metricSamples tags pcts labels (ssAfter ss name (Metric.counter v))
        name (Metric.counter v2) = [Sample.count name (wrap64 (v2 - v)) tags 1]) := by
  have hr : int64Range (v - ss name) := by
    constructor
    · linarith
    · have : (0 : ℤ) < 2 ^ 63 := by norm_num
      linarith
  refine ⟨?_, by linarith, by simp [ssAfter], ?_⟩
  · show [Sample.count name (wrap64 (v - ss name)) tags 1] =
      [Sample.count name (v - ss name) tags 1]
    rw [wrap64_of_int64Range _ hr]
  · intro v2
    simp [metricSamples, ssAfter]

/-- C10 witness: baseline 5, current count 3 — the flush emits delta -2. -/
theorem claim10Witness :
    ((3 : ℤ) < (fun _ : String => (5 : ℤ)) "n" ∧
      (fun _ : String => (5 : ℤ)) "n" - 3 ≤ 2 ^ 63) ∧
    metricSamples [] [] [] (fun _ => 5) "n" (Metric.counter 3) =
      [Sample.count "n" (3 - 5) [] 1] ∧ (3 : ℤ) - 5 < 0 :=
  ⟨⟨by decide, by decide⟩,
    (claim10NegativeDelta [] [] [] (fun _ => 5) "n" 3 (by decide) (by decide)).1,
    (claim10NegativeDelta [] [] [] (fun _ => 5) "n" 3 (by decide) (by decide)).2.1⟩

end Datadog
